import Mathlib

/-!
Verification of the subtitle-timing core of the video-subtitle-translator
repository.  The Python services are shallowly embedded in Lean: `float`
arithmetic is modelled exactly by `ℚ` (the constants involved are decimal
and the comparisons in the claims are not sensitive to binary rounding),
Python lists become `List`, dataclasses become structures, and in-place
mutation of list elements becomes explicit rebuilding of the list.
-/

/-! ## Data model: `WordTiming` (src/services/word_level_sync.py) -/

structure WordTiming where
  word : String
  start : ℚ
  «end» : ℚ
  confidence : ℚ
  speaker : String
  word_index : ℕ
  duration : ℚ
  is_punctuated : Bool
  is_estimated : Bool
deriving DecidableEq, Repr

instance : Inhabited WordTiming :=
  ⟨⟨"", 0, 0, 0, "A", 0, 0, false, false⟩⟩

/-! ## Constants of `AdvancedWordProcessor.__init__`
(src/services/advanced_word_processor.py) -/

def min_word_gap : ℚ := 1/50        -- 0.020 s
def min_word_duration : ℚ := 2/5    -- 0.400 s
def block_overlap : ℚ := 1/10       -- 0.100 s

/-! ## `_fix_overlapping_segments` (advanced_word_processor.py lines 156-221)

The loop appends a copy of each word, after adjusting it (and possibly the
previously appended word) when it overlaps the previously appended word.
`fixGo prev ws` carries the last appended word `prev`, emitting it once its
successor has been settled. -/

def fixGo (prev : WordTiming) : List WordTiming → List WordTiming
  | [] => [prev]
  | w :: ws =>
    if w.start < prev.«end» then
      let o := prev.«end» - w.start
      if o ≤ 1/20 then
        -- small overlap (≤ 50 ms): push current start, keep its end
        let cur := { w with start := prev.«end» + min_word_gap,
                            duration := w.«end» - (prev.«end» + min_word_gap) }
        prev :: fixGo cur ws
      else if o ≤ 1/5 then
        -- medium overlap (≤ 200 ms): split the overlap between both words
        let prev2 := { prev with «end» := prev.«end» - o / 2 }
        let cur := { w with start := prev2.«end» + min_word_gap,
                            duration := w.«end» - (prev2.«end» + min_word_gap) }
        prev2 :: fixGo cur ws
      else
        -- large overlap (> 200 ms): proportional rescale of the previous word
        let total := w.«end» - prev.start
        let ratio := (prev.«end» - prev.start) /
          (o + (prev.«end» - prev.start) + (w.«end» - w.start))
        let prev2 := { prev with «end» := prev.start + total * ratio }
        let cur := { w with start := prev2.«end» + min_word_gap,
                            duration := w.«end» - (prev2.«end» + min_word_gap) }
        prev2 :: fixGo cur ws
    else
      prev :: fixGo w ws

def fixOverlappingSegments : List WordTiming → List WordTiming
  | [] => []
  | w :: ws => fixGo w ws

/-! ## `_add_minimum_word_gaps` (advanced_word_processor.py lines 223-271) -/

def gapGo (prev : WordTiming) : List WordTiming → List WordTiming
  | [] => []
  | w :: ws =>
    let cur :=
      if w.start - prev.«end» < min_word_gap then
        -- too small a gap (or an overlap): move the word, keep its duration
        let d := w.«end» - w.start
        { w with start := prev.«end» + min_word_gap,
                 «end» := prev.«end» + min_word_gap + d,
                 duration := d }
      else w
    cur :: gapGo cur ws

def addMinimumWordGaps : List WordTiming → List WordTiming
  | [] => []
  | w :: ws => w :: gapGo w ws

/-! ## `_apply_minimum_display_duration` (advanced_word_processor.py lines 399-447) -/

def applyMinimumDisplayDuration (ws : List WordTiming) : List WordTiming :=
  ws.map fun w =>
    let cd := w.«end» - w.start
    if cd < min_word_duration ∨ w.word.length ≤ 2 ∨ w.is_punctuated = true then
      let nd :=
        if w.word.length ≤ 2 then min_word_duration
        else if w.is_punctuated then max min_word_duration (cd * (3/2))
        else min_word_duration
      { w with «end» := w.start + nd, duration := nd }
    else w

/-- The timing-repair part of `process_word_level_transcription`
(steps 2, 3 and 5; the energy-based offset correction of step 4 needs an
audio file and is skipped on the pure-transcript path). -/
def repairPipeline (ws : List WordTiming) : List WordTiming :=
  applyMinimumDisplayDuration (addMinimumWordGaps (fixOverlappingSegments ws))

/-! ## Basic structural lemmas about the repair passes -/

/-- Gap invariant produced by `_add_minimum_word_gaps`. -/
def GapOk (p c : WordTiming) : Prop := p.«end» + min_word_gap ≤ c.start

instance : ∀ p c, Decidable (GapOk p c) := fun p c => by
  unfold GapOk; infer_instance

lemma gapGo_chain (ws : List WordTiming) : ∀ prev,
    List.Chain' GapOk (prev :: gapGo prev ws) := by
  induction ws with
  | nil => intro prev; simp [gapGo]
  | cons w ws ih =>
    intro prev
    rw [gapGo]
    by_cases h : w.start - prev.«end» < min_word_gap
    · rw [if_pos h]
      exact List.Chain'.cons (by simp [GapOk]) (ih _)
    · rw [if_neg h]
      refine List.Chain'.cons ?_ (ih _)
      have := not_lt.mp h
      simp only [GapOk]
      linarith

lemma addMinimumWordGaps_chain (l : List WordTiming) :
    List.Chain' GapOk (addMinimumWordGaps l) := by
  cases l with
  | nil => simp [addMinimumWordGaps]
  | cons w ws => exact gapGo_chain ws w

lemma fixGo_of_chain (ws : List WordTiming) : ∀ prev,
    List.Chain' (fun p c => ¬ c.start < p.«end») (prev :: ws) →
    fixGo prev ws = prev :: ws := by
  induction ws with
  | nil => intro prev _; rfl
  | cons w ws ih =>
    intro prev h
    rw [List.chain'_cons] at h
    rw [fixGo, if_neg h.1, ih w h.2]

lemma gapGo_of_chain (ws : List WordTiming) : ∀ prev,
    List.Chain' (fun p c => ¬ c.start - p.«end» < min_word_gap) (prev :: ws) →
    gapGo prev ws = ws := by
  induction ws with
  | nil => intro prev _; rfl
  | cons w ws ih =>
    intro prev h
    rw [List.chain'_cons] at h
    rw [gapGo, if_neg h.1, ih w h.2]

lemma fixOverlappingSegments_of_gapChain (l : List WordTiming)
    (h : List.Chain' GapOk l) : fixOverlappingSegments l = l := by
  cases l with
  | nil => rfl
  | cons w ws =>
    refine fixGo_of_chain ws w (h.imp ?_)
    intro p c hpc
    have : (0 : ℚ) < min_word_gap := by norm_num [min_word_gap]
    simp only [GapOk] at hpc
    exact not_lt.mpr (by linarith)

lemma addMinimumWordGaps_of_gapChain (l : List WordTiming)
    (h : List.Chain' GapOk l) : addMinimumWordGaps l = l := by
  cases l with
  | nil => rfl
  | cons w ws =>
    rw [addMinimumWordGaps]
    rw [gapGo_of_chain ws w (h.imp ?_)]
    intro p c hpc
    simp only [GapOk] at hpc
    exact not_lt.mpr (by linarith)

lemma applyMinimumDisplayDuration_duration (l : List WordTiming) :
    ∀ w ∈ applyMinimumDisplayDuration l,
      min_word_duration ≤ w.«end» - w.start := by
  intro w hw
  rcases List.mem_map.mp hw with ⟨x, _, rfl⟩
  dsimp only
  by_cases h : x.«end» - x.start < min_word_duration ∨ x.word.length ≤ 2 ∨
      x.is_punctuated = true
  · rw [if_pos h]
    by_cases h2 : x.word.length ≤ 2
    · simp [h2]
    · rw [if_neg h2]
      by_cases h3 : x.is_punctuated
      · simp only [if_pos h3]
        have := le_max_left min_word_duration ((x.«end» - x.start) * (3/2))
        linarith [le_max_left min_word_duration ((x.«end» - x.start) * (3/2))]
      · simp [h3]
  · rw [if_neg h]
    push_neg at h
    linarith [h.1]

/-! ## C1 — overlap repair on Scenario A's two tokens -/

def tokenHi : WordTiming :=
  ⟨"Hi", 0, 11/20, 9/10, "A", 0, 11/20, false, false⟩

def tokenThere : WordTiming :=
  ⟨"there", 9/20, 9/10, 9/10, "A", 1, 9/20, false, false⟩

/-- C1 counterexample.  On `[("Hi",0.0,0.55), ("there",0.45,0.9)]` with
`min_gap = 0.02` the overlap is 0.10 s, so `_fix_overlapping_segments`
takes the even-split branch: the second token starts at 0.52 (not 0.57)
and ends at 0.9 (not 1.02); its duration becomes 0.38 s, not 0.45 s. -/
theorem fix_overlap_scenarioA_counterexample :
    (fixOverlappingSegments [tokenHi, tokenThere]).map
        (fun w => (w.start, w.«end»)) = [(0, 1/2), (13/25, 9/10)] ∧
      (13/25 : ℚ) ≠ 57/100 ∧ (9/10 : ℚ) ≠ 51/50 := by
  refine ⟨?_, by norm_num, by norm_num⟩
  norm_num [fixOverlappingSegments, fixGo, tokenHi, tokenThere, min_word_gap]

/-- C1 amended: with those inputs the overlap is 0.10 s, which falls in the
50-200 ms branch, so the overlap is split evenly: the first token's end
moves to 0.50, the second token starts at `0.50 + min_gap = 0.52`, keeps
its original end 0.9 (duration 0.38 s). -/
theorem fix_overlap_scenarioA_amended :
    fixOverlappingSegments [tokenHi, tokenThere] =
      [⟨"Hi", 0, 1/2, 9/10, "A", 0, 11/20, false, false⟩,
       ⟨"there", 13/25, 9/10, 9/10, "A", 1, 19/50, false, false⟩] := by
  norm_num [fixOverlappingSegments, fixGo, tokenHi, tokenThere, min_word_gap,
    WordTiming.mk.injEq]

/-! ## C2 — gap and duration invariants of the repair pipeline -/

def wordA : WordTiming :=
  ⟨"abc", 0, 1/10, 9/10, "A", 0, 1/10, false, false⟩

def wordB : WordTiming :=
  ⟨"def", 1/5, 3/10, 9/10, "A", 1, 1/10, false, false⟩

/-- C2 counterexample.  On `[("abc",0,0.1), ("def",0.2,0.3)]` the full
pipeline leaves the first token at `[0, 0.4]` and the second at
`[0.2, 0.6]`: the minimum-display-duration pass re-introduces an overlap,
so `tokens[0].end + min_gap ≤ tokens[1].start` fails on the output
(0.42 > 0.2).  (No maximum duration is enforced anywhere in the code.) -/
theorem repair_gap_invariant_counterexample :
    (repairPipeline [wordA, wordB]).map (fun w => (w.start, w.«end»)) =
        [(0, 2/5), (1/5, 3/5)] ∧
      ¬ ((2/5 : ℚ) + min_word_gap ≤ 1/5) := by
  constructor
  · norm_num [repairPipeline, fixOverlappingSegments, fixGo, addMinimumWordGaps,
      gapGo, applyMinimumDisplayDuration, wordA, wordB, min_word_gap,
      min_word_duration]
  · norm_num [min_word_gap]

/-- C2 amended: after the overlap-fix and minimum-gap stages every adjacent
pair satisfies `prev.end + min_gap ≤ cur.start`; the subsequent
minimum-display-duration pass guarantees that every output token's duration
is at least `min_word_duration` (400 ms) but can re-introduce overlaps,
and the code enforces no maximum duration. -/
theorem repair_gap_and_min_duration_amended :
    (∀ ws : List WordTiming,
      List.Chain' GapOk (addMinimumWordGaps (fixOverlappingSegments ws))) ∧
    (∀ ws : List WordTiming, ∀ w ∈ repairPipeline ws,
      min_word_duration ≤ w.«end» - w.start) :=
  ⟨fun ws => addMinimumWordGaps_chain _,
   fun _ws w hw => applyMinimumDisplayDuration_duration _ w hw⟩

/-- Witness for the amended C2 at the concrete input `[wordA, wordB]`. -/
theorem repair_gap_and_min_duration_witness :
    List.Chain' GapOk (addMinimumWordGaps (fixOverlappingSegments [wordA, wordB])) ∧
      min_word_duration ≤
        (⟨"def", 1/5, 3/5, 9/10, "A", 1, 2/5, false, false⟩ : WordTiming).«end» -
        (⟨"def", 1/5, 3/5, 9/10, "A", 1, 2/5, false, false⟩ : WordTiming).start :=
  ⟨repair_gap_and_min_duration_amended.1 [wordA, wordB],
   repair_gap_and_min_duration_amended.2 [wordA, wordB] _ (by
    norm_num [repairPipeline, fixOverlappingSegments, fixGo, addMinimumWordGaps,
      gapGo, applyMinimumDisplayDuration, wordA, wordB, min_word_gap,
      min_word_duration, WordTiming.mk.injEq])⟩

/-! ## C3 — idempotence of the repair -/

/-- C3 counterexample.  The full repair is not idempotent: on
`[("abc",0,0.1), ("def",0.2,0.3)]` the first run yields tokens at
`[0,0.4], [0.2,0.6]`, and running the repair again moves the second token
to `[0.32, 0.72]`. -/
theorem repair_idempotent_counterexample :
    repairPipeline (repairPipeline [wordA, wordB]) ≠
      repairPipeline [wordA, wordB] := by
  intro h
  have h1 : (repairPipeline [wordA, wordB]).map (fun w => w.start) =
      [0, 1/5] := by
    norm_num [repairPipeline, fixOverlappingSegments, fixGo, addMinimumWordGaps,
      gapGo, applyMinimumDisplayDuration, wordA, wordB, min_word_gap,
      min_word_duration]
  have h2 : (repairPipeline (repairPipeline [wordA, wordB])).map
      (fun w => w.start) = [0, 8/25] := by
    norm_num [repairPipeline, fixOverlappingSegments, fixGo, addMinimumWordGaps,
      gapGo, applyMinimumDisplayDuration, wordA, wordB, min_word_gap,
      min_word_duration]
  rw [h, h1] at h2
  norm_num at h2

/-- C3 amended: the overlap-fix followed by minimum-gap enforcement is
idempotent (its output is a fixed point of both passes); the full repair is
not, because the minimum-display-duration pass can re-create overlaps. -/
theorem repair_overlap_gap_idempotent_amended :
    ∀ ws : List WordTiming,
      addMinimumWordGaps (fixOverlappingSegments
          (addMinimumWordGaps (fixOverlappingSegments ws))) =
        addMinimumWordGaps (fixOverlappingSegments ws) := by
  intro ws
  have h := addMinimumWordGaps_chain (fixOverlappingSegments ws)
  rw [fixOverlappingSegments_of_gapChain _ h, addMinimumWordGaps_of_gapChain _ h]

/-! ## `RetryManager.execute_with_retry` (src/services/retry_manager.py)

An operation attempt is modelled as `attempts : ℕ → Except String α`:
attempt `i` either yields an accepted result or fails with a cause string
(an exception, or — treated identically by the code — rejection by
`_validate_result_quality`, which raises).  The `for attempt in
range(max_retries + 1)` loop with its `retry_count` accumulator and
`last_exception` becomes `retryGo`. -/

structure RetryConfig where
  max_retries : ℕ
  base_delay : ℚ
  max_delay : ℚ
  exponential_backoff : Bool
  confidence_threshold : ℚ
deriving DecidableEq, Repr

def defaultRetryConfig : RetryConfig := ⟨3, 1, 30, true, 7/10⟩

/-- `_calculate_retry_delay` (retry_manager.py lines 114-121). -/
def calculateRetryDelay (cfg : RetryConfig) (attempt : ℕ) : ℚ :=
  if cfg.exponential_backoff then
    min (cfg.base_delay * 2 ^ attempt) cfg.max_delay
  else
    min cfg.base_delay cfg.max_delay

/-- The final exception raised after all attempts fail
(`Exception(f"Operacja {name} nieudana po {retry_count} próbach: {last}")`). -/
structure ExhaustedError where
  operation : String
  retry_count : ℕ
  last_cause : String
deriving DecidableEq, Repr

def retryGo (name : String) (attempts : ℕ → Except String α) :
    ℕ → ℕ → ℕ → String → Except ExhaustedError (α × ℕ)
  | _, 0, rc, last => .error ⟨name, rc, last⟩
  | a, r + 1, rc, _ =>
    match attempts a with
    | .ok v => .ok (v, rc)
    | .error e => retryGo name attempts (a + 1) r (rc + 1) e

def execute_with_retry (cfg : RetryConfig) (name : String)
    (attempts : ℕ → Except String α) : Except ExhaustedError (α × ℕ) :=
  retryGo name attempts 0 (cfg.max_retries + 1) 0 ""

lemma retryGo_ok (attempts : ℕ → Except String α) (name : String) (v : α) :
    ∀ (k a rc r : ℕ) (last : String),
      (∀ i < k, ∃ e, attempts (a + i) = .error e) →
      attempts (a + k) = .ok v → k < r →
      retryGo name attempts a r rc last = .ok (v, rc + k) := by
  intro k
  induction k with
  | zero =>
    intro a rc r last _ hok hr
    obtain ⟨r', rfl⟩ : ∃ r', r = r' + 1 := ⟨r - 1, by omega⟩
    rw [Nat.add_zero] at hok
    rw [retryGo, hok]
    simp
  | succ k ih =>
    intro a rc r last hfail hok hr
    obtain ⟨e, he⟩ := hfail 0 (Nat.succ_pos k)
    rw [Nat.add_zero] at he
    obtain ⟨r', rfl⟩ : ∃ r', r = r' + 1 := ⟨r - 1, by omega⟩
    rw [retryGo, he]
    show retryGo name attempts (a + 1) r' (rc + 1) e = Except.ok (v, rc + (k + 1))
    rw [ih (a + 1) (rc + 1) r' e
      (fun i hi => by
        simpa [show a + (i + 1) = a + 1 + i by omega] using
          hfail (i + 1) (by omega))
      (by simpa [show a + (k + 1) = a + 1 + k by omega] using hok)
      (by omega)]
    have h1 : rc + 1 + k = rc + (k + 1) := by omega
    rw [h1]

lemma retryGo_exhaust (attempts : ℕ → Except String α) (name : String)
    (f : ℕ → String) :
    ∀ (r a rc : ℕ) (last : String),
      (∀ i < r, attempts (a + i) = .error (f (a + i))) → 0 < r →
      retryGo name attempts a r rc last =
        .error ⟨name, rc + r, f (a + r - 1)⟩ := by
  intro r
  induction r with
  | zero => intro a rc last _ h; omega
  | succ r ih =>
    intro a rc last hfail _
    have h0 := hfail 0 (Nat.succ_pos r)
    rw [Nat.add_zero] at h0
    rw [retryGo, h0]
    show retryGo name attempts (a + 1) r (rc + 1) (f a) =
      Except.error ⟨name, rc + (r + 1), f (a + (r + 1) - 1)⟩
    rcases Nat.eq_zero_or_pos r with hr | hr
    · subst hr
      simp [retryGo]
    · rw [ih (a + 1) (rc + 1) (f a)
        (fun i hi => by
          simpa [show a + 1 + i = a + (i + 1) by omega] using
            hfail (i + 1) (by omega)) hr]
      have h1 : rc + 1 + r = rc + (r + 1) := by omega
      have h2 : a + 1 + r - 1 = a + (r + 1) - 1 := by omega
      rw [h1, h2]

/-! ## C4 — retry semantics -/

/-- C4 counterexample.  With `max_retries = 3` and an operation that fails
every attempt with cause "boom", `execute_with_retry` raises an error whose
reported retry count is `4 = max_retries + 1`, not `max_retries = 3`. -/
theorem retry_exhaustion_counterexample :
    execute_with_retry defaultRetryConfig "op"
        (fun _ => (.error "boom" : Except String ℕ)) =
      .error ⟨"op", 4, "boom"⟩ ∧ (4 : ℕ) ≠ 3 := by
  constructor
  · rfl
  · norm_num

/-- C4 amended: if the operation fails exactly `k` times (`k ≤ max_retries`)
and then succeeds, `execute_with_retry` returns `(result, k)`; if it fails
on all `max_retries + 1` attempts, it raises an exhaustion error that names
the operation and the last failure cause and whose reported retry count is
`max_retries + 1` (the total number of failed attempts), not `max_retries`. -/
theorem execute_with_retry_semantics (cfg : RetryConfig) (name : String)
    (attempts : ℕ → Except String α) (f : ℕ → String) :
    (∀ (k : ℕ) (v : α), k ≤ cfg.max_retries →
      (∀ i < k, ∃ e, attempts i = .error e) → attempts k = .ok v →
      execute_with_retry cfg name attempts = .ok (v, k)) ∧
    ((∀ i ≤ cfg.max_retries, attempts i = .error (f i)) →
      execute_with_retry cfg name attempts =
        .error ⟨name, cfg.max_retries + 1, f cfg.max_retries⟩) := by
  constructor
  · intro k v hk hfail hok
    have := retryGo_ok attempts name v k 0 0 (cfg.max_retries + 1) ""
      (fun i hi => by simpa using hfail i hi) (by simpa using hok) (by omega)
    simpa [execute_with_retry] using this
  · intro hfail
    have := retryGo_exhaust attempts name f (cfg.max_retries + 1) 0 0 ""
      (fun i hi => by simpa using hfail i (by omega)) (by omega)
    simpa [execute_with_retry] using this

/-- Witness for the amended C4: a concrete operation failing twice then
succeeding returns `(42, 2)`, and one failing always with "boom" reports
4 failed attempts. -/
theorem execute_with_retry_semantics_witness :
    execute_with_retry defaultRetryConfig "op"
        (fun i => if i < 2 then .error "oops" else .ok (42 : ℕ)) =
      .ok (42, 2) ∧
    execute_with_retry defaultRetryConfig "op"
        (fun _ => (.error "boom" : Except String ℕ)) =
      .error ⟨"op", 4, "boom"⟩ :=
  ⟨(execute_with_retry_semantics defaultRetryConfig "op"
      (fun i => if i < 2 then .error "oops" else .ok (42 : ℕ))
      (fun _ => "")).1 2 42 (by norm_num [defaultRetryConfig])
      (fun i hi => ⟨"oops", by simp [hi]⟩) (by norm_num),
   (execute_with_retry_semantics defaultRetryConfig "op"
      (fun _ => (.error "boom" : Except String ℕ))
      (fun _ => "boom")).2 (fun i _ => rfl)⟩

/-! ## `QualityController` (src/services/quality_control.py)

Segments enter the controller as dicts with `text`/`start`/`end`/
`confidence`/`speaker`; issue strings are modelled as tags (the code only
ever tests emptiness of the issue lists), and the truthiness of
`text.strip()` is modelled as "some character is not whitespace". -/

structure QSegment where
  text : String
  start : ℚ
  «end» : ℚ
  confidence : ℚ
  speaker : String
deriving DecidableEq, Repr

instance : Inhabited QSegment := ⟨⟨"", 0, 0, 0, "A"⟩⟩

structure TranscriptData where
  confidence : ℚ
  segments : List QSegment
deriving DecidableEq, Repr

inductive QualityFlag
  | EXCELLENT | GOOD | ACCEPTABLE | POOR | FAILED
deriving DecidableEq, Repr

inductive QCIssue
  | lowOverallConfidence
  | noSegments
  | tooManyLowConfidenceSegments
  | tooManyTimingIssues
  | countMismatch
  | translationTooShort (i : ℕ)
  | translationTooLong (i : ℕ)
  | emptyTranslation (i : ℕ)
  | tooFast (i : ℕ)
  | tooSlow (i : ℕ)
  | overlapsPrevious (i : ℕ)
deriving DecidableEq, Repr

/-- Python's `enumerate` loop: map with the element index. -/
def mapWithIndex (f : ℕ → α → β) : ℕ → List α → List β
  | _, [] => []
  | i, a :: as => f i a :: mapWithIndex f (i + 1) as

/-- Truthiness of `s.strip()` in Python: some non-whitespace character. -/
def stripNonempty (s : String) : Bool := s.data.any (fun c => !c.isWhitespace)

/-- `validate_transcription_quality` (quality_control.py lines 63-113). -/
def validate_transcription_quality (td : TranscriptData) :
    Bool × List QCIssue :=
  let issues := if td.confidence < 7/10 then [QCIssue.lowOverallConfidence] else []
  if td.segments = [] then (false, issues ++ [QCIssue.noSegments])
  else
    let lowConf := (td.segments.filter (fun s => s.confidence < 7/10)).length
    let timingBad := (td.segments.filter (fun s =>
      s.«end» - s.start < 1/2 ∨ 10 < s.«end» - s.start)).length
    let issues := issues ++
      (if (td.segments.length : ℚ) * (3/10) < lowConf
        then [QCIssue.tooManyLowConfidenceSegments] else [])
    let issues := issues ++
      (if (td.segments.length : ℚ) * (1/5) < timingBad
        then [QCIssue.tooManyTimingIssues] else [])
    (issues = [], issues)

/-- `validate_translation_quality` (quality_control.py lines 115-150). -/
def validate_translation_quality (orig transl : List QSegment) :
    Bool × List QCIssue :=
  let issues := if orig.length ≠ transl.length then [QCIssue.countMismatch] else []
  let perPair := (mapWithIndex (fun i (p : QSegment × QSegment) =>
      let ratio : ℚ :=
        if 0 < p.1.text.length then (p.2.text.length : ℚ) / p.1.text.length else 0
      (if ratio < 3/10 then [QCIssue.translationTooShort i]
       else if 3 < ratio then [QCIssue.translationTooLong i] else []) ++
      (if stripNonempty p.2.text then [] else [QCIssue.emptyTranslation i]))
    0 (orig.zip transl)).flatten
  let issues := issues ++ perPair
  (issues = [], issues)

/-- `validate_subtitle_timing` (quality_control.py lines 152-185). -/
def validate_subtitle_timing (segs : List QSegment) : Bool × List QCIssue :=
  let issues := (mapWithIndex (fun i s =>
      let d := s.«end» - s.start
      let cps : ℚ := if 0 < d then (s.text.length : ℚ) / d else 0
      (if 20 < cps then [QCIssue.tooFast i]
       else if cps < 5 ∧ 10 < s.text.length then [QCIssue.tooSlow i] else []) ++
      (if 0 < i ∧ s.start < ((segs.get? (i - 1)).getD default).«end»
        then [QCIssue.overlapsPrevious i] else []))
    0 segs).flatten
  (issues = [], issues)

structure ConfidenceMetrics where
  transcription_confidence : ℚ
  translation_confidence : ℚ
  timing_confidence : ℚ
  overall_confidence : ℚ
  quality_flag : QualityFlag
deriving DecidableEq, Repr

/-- `calculate_confidence_metrics` (quality_control.py lines 187-246). -/
def calculate_confidence_metrics (td : TranscriptData)
    (translation_quality : ℚ) : ConfidenceMetrics :=
  let tc := td.confidence
  let trc := translation_quality
  let tcs := td.segments.map (fun s =>
    let d := s.«end» - s.start
    if 1 ≤ d ∧ d ≤ 5 then (9/10 : ℚ)
    else if 1/2 ≤ d ∧ d ≤ 8 then 7/10
    else 1/2)
  let timing := if tcs = [] then 1/2 else tcs.sum / tcs.length
  let overall := tc * (2/5) + trc * (2/5) + timing * (1/5)
  let flag :=
    if 9/10 ≤ overall then QualityFlag.EXCELLENT
    else if 4/5 ≤ overall then QualityFlag.GOOD
    else if 3/5 ≤ overall then QualityFlag.ACCEPTABLE
    else if 2/5 ≤ overall then QualityFlag.POOR
    else QualityFlag.FAILED
  ⟨tc, trc, timing, overall, flag⟩

structure SpeakerInfo where
  speaker_id : String
  confidence : ℚ
  segments_count : ℕ
  total_duration : ℚ
deriving DecidableEq, Repr

/-- `analyze_speakers` (quality_control.py lines 248-288): the dict keyed
by speaker, in order of first appearance. -/
def analyze_speakers (td : TranscriptData) : List SpeakerInfo :=
  let ids := td.segments.foldl
    (fun acc s => if s.speaker ∈ acc then acc else acc ++ [s.speaker]) []
  ids.map (fun sp =>
    let group := td.segments.filter (fun s => s.speaker = sp)
    { speaker_id := sp,
      confidence :=
        if group = [] then 0 else (group.map (·.confidence)).sum / group.length,
      segments_count := group.length,
      total_duration := (group.map (fun s => s.«end» - s.start)).sum })

inductive Recommendation
  | premiumTranscription | checkTranslationSettings
  | adjustTimingParams | manualReview
deriving DecidableEq, Repr

structure QualityReport where
  overall_quality : QualityFlag
  confidence_metrics : ConfidenceMetrics
  speaker_analysis : List SpeakerInfo
  timing_issues : List QCIssue
  translation_issues : List QCIssue
  recommendations : List Recommendation
  processing_time : ℚ
  retry_count : ℕ
deriving DecidableEq, Repr

/-- `generate_quality_report` (quality_control.py lines 290-349); the call
to `calculate_confidence_metrics` uses the default `translation_quality`
of 0.8. -/
def generate_quality_report (td : TranscriptData) (translated : List QSegment)
    (processing_time : ℚ) (retry_count : ℕ) : QualityReport :=
  let tv := validate_transcription_quality td
  let transl := validate_translation_quality td.segments translated
  let timv := validate_subtitle_timing translated
  let cm := calculate_confidence_metrics td (4/5)
  let sa := analyze_speakers td
  let overall :=
    if tv.1 = true ∧ transl.1 = true ∧ timv.1 = true ∧
        4/5 ≤ cm.overall_confidence then QualityFlag.EXCELLENT
    else if 3/5 ≤ cm.overall_confidence then QualityFlag.GOOD
    else if 2/5 ≤ cm.overall_confidence then QualityFlag.ACCEPTABLE
    else QualityFlag.POOR
  let recs :=
    (if tv.1 then [] else [Recommendation.premiumTranscription]) ++
    (if transl.1 then [] else [Recommendation.checkTranslationSettings]) ++
    (if timv.1 then [] else [Recommendation.adjustTimingParams]) ++
    (if cm.overall_confidence < 3/5 then [Recommendation.manualReview] else [])
  ⟨overall, cm, sa, timv.2, transl.2, recs, processing_time, retry_count⟩

/-! ## C5 — quality label thresholds -/

def td5 : TranscriptData := ⟨9/10, [⟨"abcdefghij", 0, 2, 9/10, "A"⟩]⟩

def translated5 : List QSegment := [⟨"abcdefghij", 0, 2, 9/10, "A"⟩]

/-- C5 counterexample.  With transcription confidence 0.9 and a single
well-formed 2-second segment, all three validations pass and the combined
confidence is 0.86 < 0.9, yet the report's overall quality is EXCELLENT:
`generate_quality_report` uses the threshold 0.8 (not 0.9) for EXCELLENT. -/
theorem quality_report_excellent_counterexample :
    (generate_quality_report td5 translated5 1 0).overall_quality =
        QualityFlag.EXCELLENT ∧
      (calculate_confidence_metrics td5 (4/5)).overall_confidence = 43/50 ∧
      ¬ ((9/10 : ℚ) ≤ 43/50) := by
  have hs : stripNonempty "abcdefghij" = true := by decide
  have hlen : "abcdefghij".length = 10 := rfl
  refine ⟨?_, ?_, by norm_num⟩
  · norm_num [generate_quality_report, validate_transcription_quality,
      validate_translation_quality, validate_subtitle_timing,
      calculate_confidence_metrics, mapWithIndex, hs, hlen, td5,
      translated5]
  · norm_num [calculate_confidence_metrics, td5]

lemma ladderSpec (o : ℚ) :
    ((if 9/10 ≤ o then QualityFlag.EXCELLENT
      else if 4/5 ≤ o then QualityFlag.GOOD
      else if 3/5 ≤ o then QualityFlag.ACCEPTABLE
      else if 2/5 ≤ o then QualityFlag.POOR
      else QualityFlag.FAILED) = QualityFlag.EXCELLENT ↔ 9/10 ≤ o) ∧
    ((if 9/10 ≤ o then QualityFlag.EXCELLENT
      else if 4/5 ≤ o then QualityFlag.GOOD
      else if 3/5 ≤ o then QualityFlag.ACCEPTABLE
      else if 2/5 ≤ o then QualityFlag.POOR
      else QualityFlag.FAILED) = QualityFlag.GOOD ↔ 4/5 ≤ o ∧ o < 9/10) ∧
    ((if 9/10 ≤ o then QualityFlag.EXCELLENT
      else if 4/5 ≤ o then QualityFlag.GOOD
      else if 3/5 ≤ o then QualityFlag.ACCEPTABLE
      else if 2/5 ≤ o then QualityFlag.POOR
      else QualityFlag.FAILED) = QualityFlag.ACCEPTABLE ↔ 3/5 ≤ o ∧ o < 4/5) ∧
    ((if 9/10 ≤ o then QualityFlag.EXCELLENT
      else if 4/5 ≤ o then QualityFlag.GOOD
      else if 3/5 ≤ o then QualityFlag.ACCEPTABLE
      else if 2/5 ≤ o then QualityFlag.POOR
      else QualityFlag.FAILED) = QualityFlag.POOR ↔ 2/5 ≤ o ∧ o < 3/5) ∧
    ((if 9/10 ≤ o then QualityFlag.EXCELLENT
      else if 4/5 ≤ o then QualityFlag.GOOD
      else if 3/5 ≤ o then QualityFlag.ACCEPTABLE
      else if 2/5 ≤ o then QualityFlag.POOR
      else QualityFlag.FAILED) = QualityFlag.FAILED ↔ o < 2/5) := by
  split_ifs with h1 h2 h3 h4 <;> refine ⟨?_, ?_, ?_, ?_, ?_⟩ <;>
    simp_all <;> first
      | linarith
      | (constructor <;> linarith)
      | (intro h; linarith)

lemma reportLadderSpec (Q : Prop) [Decidable Q] (o : ℚ) :
    ((if Q then QualityFlag.EXCELLENT
      else if 3/5 ≤ o then QualityFlag.GOOD
      else if 2/5 ≤ o then QualityFlag.ACCEPTABLE
      else QualityFlag.POOR) = QualityFlag.EXCELLENT ↔ Q) ∧
    ((if Q then QualityFlag.EXCELLENT
      else if 3/5 ≤ o then QualityFlag.GOOD
      else if 2/5 ≤ o then QualityFlag.ACCEPTABLE
      else QualityFlag.POOR) = QualityFlag.GOOD ↔ ¬ Q ∧ 3/5 ≤ o) ∧
    ((if Q then QualityFlag.EXCELLENT
      else if 3/5 ≤ o then QualityFlag.GOOD
      else if 2/5 ≤ o then QualityFlag.ACCEPTABLE
      else QualityFlag.POOR) = QualityFlag.ACCEPTABLE ↔
        ¬ Q ∧ o < 3/5 ∧ 2/5 ≤ o) ∧
    ((if Q then QualityFlag.EXCELLENT
      else if 3/5 ≤ o then QualityFlag.GOOD
      else if 2/5 ≤ o then QualityFlag.ACCEPTABLE
      else QualityFlag.POOR) = QualityFlag.POOR ↔ ¬ Q ∧ o < 2/5) ∧
    ((if Q then QualityFlag.EXCELLENT
      else if 3/5 ≤ o then QualityFlag.GOOD
      else if 2/5 ≤ o then QualityFlag.ACCEPTABLE
      else QualityFlag.POOR) ≠ QualityFlag.FAILED) := by
  split_ifs with h1 h2 h3 <;> refine ⟨?_, ?_, ?_, ?_, ?_⟩ <;>
    simp_all <;> first
      | linarith
      | (constructor <;> linarith)
      | (intro h; linarith)

/-- C5 amended: the ≥0.9/≥0.8/≥0.6/≥0.4 ladder (EXCELLENT/GOOD/
ACCEPTABLE/POOR, else FAILED) is the `quality_flag` of the confidence
metrics; the report's `overall_quality` instead is EXCELLENT exactly when
all three validations pass and the combined confidence is ≥ 0.8, otherwise
GOOD when ≥ 0.6, ACCEPTABLE when ≥ 0.4, else POOR — and it is never
FAILED. -/
theorem quality_label_thresholds_amended (td : TranscriptData)
    (translated : List QSegment) (pt : ℚ) (rc : ℕ) :
    ((calculate_confidence_metrics td (4/5)).quality_flag =
        QualityFlag.EXCELLENT ↔
      9/10 ≤ (calculate_confidence_metrics td (4/5)).overall_confidence) ∧
    ((calculate_confidence_metrics td (4/5)).quality_flag = QualityFlag.GOOD ↔
      4/5 ≤ (calculate_confidence_metrics td (4/5)).overall_confidence ∧
        (calculate_confidence_metrics td (4/5)).overall_confidence < 9/10) ∧
    ((calculate_confidence_metrics td (4/5)).quality_flag =
        QualityFlag.ACCEPTABLE ↔
      3/5 ≤ (calculate_confidence_metrics td (4/5)).overall_confidence ∧
        (calculate_confidence_metrics td (4/5)).overall_confidence < 4/5) ∧
    ((calculate_confidence_metrics td (4/5)).quality_flag = QualityFlag.POOR ↔
      2/5 ≤ (calculate_confidence_metrics td (4/5)).overall_confidence ∧
        (calculate_confidence_metrics td (4/5)).overall_confidence < 3/5) ∧
    ((calculate_confidence_metrics td (4/5)).quality_flag =
        QualityFlag.FAILED ↔
      (calculate_confidence_metrics td (4/5)).overall_confidence < 2/5) ∧
    ((generate_quality_report td translated pt rc).overall_quality =
        QualityFlag.EXCELLENT ↔
      (validate_transcription_quality td).1 = true ∧
        (validate_translation_quality td.segments translated).1 = true ∧
        (validate_subtitle_timing translated).1 = true ∧
        4/5 ≤ (calculate_confidence_metrics td (4/5)).overall_confidence) ∧
    ((generate_quality_report td translated pt rc).overall_quality =
        QualityFlag.GOOD ↔
      ¬ ((validate_transcription_quality td).1 = true ∧
          (validate_translation_quality td.segments translated).1 = true ∧
          (validate_subtitle_timing translated).1 = true ∧
          4/5 ≤ (calculate_confidence_metrics td (4/5)).overall_confidence) ∧
        3/5 ≤ (calculate_confidence_metrics td (4/5)).overall_confidence) ∧
    ((generate_quality_report td translated pt rc).overall_quality =
        QualityFlag.POOR ↔
      ¬ ((validate_transcription_quality td).1 = true ∧
          (validate_translation_quality td.segments translated).1 = true ∧
          (validate_subtitle_timing translated).1 = true ∧
          4/5 ≤ (calculate_confidence_metrics td (4/5)).overall_confidence) ∧
        (calculate_confidence_metrics td (4/5)).overall_confidence < 2/5) ∧
    (generate_quality_report td translated pt rc).overall_quality ≠
      QualityFlag.FAILED := by
  have hm := ladderSpec ((calculate_confidence_metrics td (4/5)).overall_confidence)
  have hr := reportLadderSpec
    ((validate_transcription_quality td).1 = true ∧
      (validate_translation_quality td.segments translated).1 = true ∧
      (validate_subtitle_timing translated).1 = true ∧
      4/5 ≤ (calculate_confidence_metrics td (4/5)).overall_confidence)
    ((calculate_confidence_metrics td (4/5)).overall_confidence)
  have hflag : (calculate_confidence_metrics td (4/5)).quality_flag =
      (if 9/10 ≤ (calculate_confidence_metrics td (4/5)).overall_confidence
        then QualityFlag.EXCELLENT
       else if 4/5 ≤ (calculate_confidence_metrics td (4/5)).overall_confidence
        then QualityFlag.GOOD
       else if 3/5 ≤ (calculate_confidence_metrics td (4/5)).overall_confidence
        then QualityFlag.ACCEPTABLE
       else if 2/5 ≤ (calculate_confidence_metrics td (4/5)).overall_confidence
        then QualityFlag.POOR
       else QualityFlag.FAILED) := rfl
  have hlabel : (generate_quality_report td translated pt rc).overall_quality =
      (if (validate_transcription_quality td).1 = true ∧
          (validate_translation_quality td.segments translated).1 = true ∧
          (validate_subtitle_timing translated).1 = true ∧
          4/5 ≤ (calculate_confidence_metrics td (4/5)).overall_confidence
        then QualityFlag.EXCELLENT
       else if 3/5 ≤ (calculate_confidence_metrics td (4/5)).overall_confidence
        then QualityFlag.GOOD
       else if 2/5 ≤ (calculate_confidence_metrics td (4/5)).overall_confidence
        then QualityFlag.ACCEPTABLE
       else QualityFlag.POOR) := rfl
  rw [hflag, hlabel]
  exact ⟨hm.1, hm.2.1, hm.2.2.1, hm.2.2.2.1, hm.2.2.2.2, hr.1,
    hr.2.1, hr.2.2.2.1, hr.2.2.2.2⟩

/-! ## `AudioSyncManager` (src/services/audio_sync_manager.py)

Segment dicts carry `start`/`end`/`confidence` plus the bookkeeping keys
written by `apply_sync_correction`; `segment.get('confidence', 1.0)` is
modelled by a always-present `confidence` field. -/

structure SyncSegment where
  start : ℚ
  «end» : ℚ
  confidence : ℚ
  sync_corrected : Bool
  sync_offset : ℚ
  sync_confidence : ℚ
  sync_method : String
  original_start : ℚ
  original_end : ℚ
deriving DecidableEq, Repr

instance : Inhabited SyncSegment := ⟨⟨0, 0, 1, false, 0, 0, "", 0, 0⟩⟩

structure SyncCorrection where
  offset_seconds : ℚ
  confidence : ℚ
  method : String
  segments_adjusted : ℕ
deriving DecidableEq, Repr

/-- `AudioSyncManager.__init__`: `self.min_confidence = 0.3`. -/
def sync_min_confidence : ℚ := 3/10

/-- `_calculate_adaptive_offset` (audio_sync_manager.py lines 672-705). -/
def calculate_adaptive_offset (seg : SyncSegment) (base : ℚ)
    (segment_index total_segments : ℕ) : ℚ :=
  let a1 := if segment_index = 0 ∨ segment_index = total_segments - 1
    then base * (7/10) else base
  let d := seg.«end» - seg.start
  let a2 := if d < 1 then a1 * (4/5) else if 5 < d then a1 * (11/10) else a1
  if seg.confidence < 7/10 then a2 * seg.confidence else a2

/-- `_validate_segment_timing` (audio_sync_manager.py lines 707-738). -/
def validate_segment_timing (s e : ℚ) (orig : SyncSegment) : Bool :=
  if s < 0 ∨ e ≤ s then false
  else
    let od := orig.«end» - orig.start
    let nd := e - s
    let ratio := if 0 < od then nd / od else 1
    if ratio < 4/5 ∨ 6/5 < ratio then false
    else if 3 < |s - orig.start| then false
    else true

/-- The body of the per-segment loop of `apply_sync_correction`
(audio_sync_manager.py lines 635-664). -/
def correctSegment (offset : ℚ) (corr : SyncCorrection)
    (i n : ℕ) (seg : SyncSegment) : SyncSegment :=
  let ao := calculate_adaptive_offset seg offset i n
  let ns := max 0 (seg.start + ao)
  let ne := max (ns + 1/10) (seg.«end» + ao)
  let p :=
    if validate_segment_timing ns ne seg then (ns, ne)
    else
      let fo := ao / 2
      let fs := max 0 (seg.start + fo)
      (fs, max (fs + 1/10) (seg.«end» + fo))
  { seg with
      start := p.1
      «end» := p.2
      sync_corrected := true
      sync_offset := ao
      sync_confidence := corr.confidence
      sync_method := corr.method
      original_start := seg.start
      original_end := seg.«end» }

/-- `AudioSyncManager._fix_overlapping_segments`
(audio_sync_manager.py lines 740-775). -/
def syncFixGo (prev : SyncSegment) : List SyncSegment → List SyncSegment
  | [] => []
  | s :: ss =>
    let s2 :=
      if s.start < prev.«end» then
        let st := prev.«end» + 1/10
        let en := if s.«end» - st < 1/2 then st + 1/2 else s.«end»
        { s with start := st, «end» := en }
      else s
    s2 :: syncFixGo s2 ss

def fix_overlapping_sync_segments : List SyncSegment → List SyncSegment
  | [] => []
  | s :: ss => s :: syncFixGo s ss

/-- `apply_sync_correction` (audio_sync_manager.py lines 606-670). -/
def apply_sync_correction (segments : List SyncSegment)
    (correction : SyncCorrection) : List SyncSegment :=
  if correction.confidence < 3/10 then segments
  else
    let offset :=
      if correction.confidence < sync_min_confidence
        then correction.offset_seconds * correction.confidence
        else correction.offset_seconds
    fix_overlapping_sync_segments
      (mapWithIndex (fun i s => correctSegment offset correction i
        segments.length s) 0 segments)

/-! ## C7 — corrections below confidence 0.3 are discarded -/

/-- C7: for every segment list, a `SyncCorrection` with confidence below
0.3 is skipped entirely: `apply_sync_correction` returns its input
unchanged. -/
theorem apply_sync_low_confidence_skips (segments : List SyncSegment)
    (correction : SyncCorrection) (h : correction.confidence < 3/10) :
    apply_sync_correction segments correction = segments := by
  simp [apply_sync_correction, h]

def segW : SyncSegment := ⟨0, 1, 1, false, 0, 0, "", 0, 0⟩

def corrLow : SyncCorrection := ⟨5, 1/5, "energy", 0⟩

/-- Witness for C7 at a concrete segment and a confidence-0.2 correction. -/
theorem apply_sync_low_confidence_skips_witness :
    apply_sync_correction [segW] corrLow = [segW] :=
  apply_sync_low_confidence_skips [segW] corrLow (by norm_num [corrLow])

/-! ## C6 — validation and the halved-offset fallback -/

def seg6 : SyncSegment := ⟨5, 7, 1, false, 0, 0, "", 0, 0⟩

def corr6 : SyncCorrection := ⟨10, 9/10, "m", 0⟩

/-- C6 counterexample.  For a `[5, 7]` segment and a 10 s correction at
confidence 0.9 the adaptive offset is 7 s; the shifted timing `[12, 14]`
fails validation (shift > 3 s), the halved shift `[8.5, 10.5]` also fails
validation (3.5 > 3), yet the code still applies it: the returned segment
starts at 8.5, not at its original 5. -/
theorem sync_fallback_counterexample :
    (apply_sync_correction [seg6] corr6).map (fun s => (s.start, s.«end»)) =
        [(17/2, 21/2)] ∧
      validate_segment_timing (17/2) (21/2) seg6 = false ∧
      (17/2 : ℚ) ≠ 5 := by
  refine ⟨?_, ?_, by norm_num⟩
  · norm_num [apply_sync_correction, sync_min_confidence, mapWithIndex,
      correctSegment, calculate_adaptive_offset, validate_segment_timing,
      fix_overlapping_sync_segments, syncFixGo, seg6, corr6, abs]
  · norm_num [validate_segment_timing, seg6, abs]

/-- C6 amended: the post-shift validation checks exactly
`new_start ≥ 0`, `new_end > new_start`, duration ratio in `[0.8, 1.2]`
and `|start shift| ≤ 3 s`; when it fails, the code recomputes the shift
with half the adaptive offset and applies it *unconditionally* — the
halved shift is never re-validated and the original timing is never
restored — and the segment is flagged `sync_corrected` in all cases. -/
theorem sync_validation_and_fallback_amended :
    (∀ (s e : ℚ) (orig : SyncSegment),
      validate_segment_timing s e orig = true ↔
        0 ≤ s ∧ s < e ∧
        (0 < orig.«end» - orig.start →
          4/5 ≤ (e - s) / (orig.«end» - orig.start) ∧
          (e - s) / (orig.«end» - orig.start) ≤ 6/5) ∧
        |s - orig.start| ≤ 3) ∧
    (∀ (seg : SyncSegment) (corr : SyncCorrection),
      sync_min_confidence ≤ corr.confidence →
      validate_segment_timing
          (max 0 (seg.start + calculate_adaptive_offset seg
            corr.offset_seconds 0 1))
          (max (max 0 (seg.start + calculate_adaptive_offset seg
              corr.offset_seconds 0 1) + 1/10)
            (seg.«end» + calculate_adaptive_offset seg
              corr.offset_seconds 0 1)) seg = false →
      apply_sync_correction [seg] corr =
        [{ seg with
            start := max 0 (seg.start +
              calculate_adaptive_offset seg corr.offset_seconds 0 1 / 2)
            «end» := max (max 0 (seg.start +
                calculate_adaptive_offset seg corr.offset_seconds 0 1 / 2)
                + 1/10)
              (seg.«end» +
                calculate_adaptive_offset seg corr.offset_seconds 0 1 / 2)
            sync_corrected := true
            sync_offset := calculate_adaptive_offset seg
              corr.offset_seconds 0 1
            sync_confidence := corr.confidence
            sync_method := corr.method
            original_start := seg.start
            original_end := seg.«end» }]) := by
  constructor
  · intro s e orig
    unfold validate_segment_timing
    by_cases h1 : s < 0 ∨ e ≤ s
    · simp only [if_pos h1, Bool.false_eq_true, false_iff]
      push_neg
      intro hs hse
      rcases h1 with h | h
      · exact absurd hs (by linarith)
      · exact absurd hse (by linarith)
    · rw [if_neg h1]
      push_neg at h1
      by_cases h2 : (if 0 < orig.«end» - orig.start
          then (e - s) / (orig.«end» - orig.start) else 1) < 4/5 ∨
          6/5 < (if 0 < orig.«end» - orig.start
          then (e - s) / (orig.«end» - orig.start) else 1)
      · simp only [if_pos h2, Bool.false_eq_true, false_iff]
        push_neg
        intro _ _ hr
        exfalso
        by_cases hod : 0 < orig.«end» - orig.start
        · rw [if_pos hod] at h2
          rcases h2 with h | h
          · exact absurd (hr hod).1 (by linarith)
          · exact absurd (hr hod).2 (by linarith)
        · rw [if_neg hod] at h2
          rcases h2 with h | h <;> norm_num at h
      · rw [if_neg h2]
        push_neg at h2
        by_cases h3 : 3 < |s - orig.start|
        · simp only [if_pos h3, Bool.false_eq_true, false_iff]
          push_neg
          intro _ _ _
          exact h3
        · simp only [if_neg h3, true_iff]
          push_neg at h3
          refine ⟨h1.1, lt_of_not_le (fun hle => ?_), fun hod => ?_, h3⟩
          · exact absurd (h1.2) (by linarith)
          · rw [if_pos hod] at h2
            exact ⟨h2.1, h2.2⟩
  · intro seg corr hc hv
    have h1 : ¬ corr.confidence < 3/10 := by
      rw [sync_min_confidence] at hc
      linarith
    have h2 : ¬ corr.confidence < sync_min_confidence := by linarith
    simp only [apply_sync_correction, if_neg h1, mapWithIndex,
      List.length_cons, List.length_nil, if_neg h2,
      fix_overlapping_sync_segments, syncFixGo, correctSegment, hv,
      Bool.false_eq_true, if_false]

/-- Witness for the amended C6 at the concrete `[5,7]` segment and 10 s
correction: the fallback path is taken and the halved shift applied. -/
theorem sync_validation_and_fallback_witness :
    apply_sync_correction [seg6] corr6 =
      [{ seg6 with
          start := max 0 (seg6.start +
            calculate_adaptive_offset seg6 corr6.offset_seconds 0 1 / 2)
          «end» := max (max 0 (seg6.start +
              calculate_adaptive_offset seg6 corr6.offset_seconds 0 1 / 2)
              + 1/10)
            (seg6.«end» +
              calculate_adaptive_offset seg6 corr6.offset_seconds 0 1 / 2)
          sync_corrected := true
          sync_offset := calculate_adaptive_offset seg6
            corr6.offset_seconds 0 1
          sync_confidence := corr6.confidence
          sync_method := corr6.method
          original_start := seg6.start
          original_end := seg6.«end» }] :=
  sync_validation_and_fallback_amended.2 seg6 corr6
    (by norm_num [corr6, sync_min_confidence])
    (by norm_num [validate_segment_timing, calculate_adaptive_offset,
      seg6, corr6, abs])

/-! ## C10 — output invariants of `apply_sync_correction` -/

/-- Every segment produced by the correction loop has a non-negative start
and an end at least 100 ms after its start (both clamps). -/
lemma correctSegment_good (offset : ℚ) (corr : SyncCorrection)
    (i n : ℕ) (seg : SyncSegment) :
    0 ≤ (correctSegment offset corr i n seg).start ∧
      (correctSegment offset corr i n seg).start + 1/10 ≤
        (correctSegment offset corr i n seg).«end» := by
  unfold correctSegment
  by_cases h : validate_segment_timing
      (max 0 (seg.start + calculate_adaptive_offset seg offset i n))
      (max (max 0 (seg.start + calculate_adaptive_offset seg offset i n)
        + 1/10) (seg.«end» + calculate_adaptive_offset seg offset i n)) seg
  · simp only [if_pos h]
    exact ⟨le_max_left _ _, le_max_left _ _⟩
  · simp only [if_neg h]
    exact ⟨le_max_left _ _, le_max_left _ _⟩

lemma mapWithIndex_forall {P : β → Prop} (f : ℕ → α → β)
    (hf : ∀ i a, P (f i a)) :
    ∀ (i0 : ℕ) (l : List α), ∀ b ∈ mapWithIndex f i0 l, P b := by
  intro i0 l
  induction l generalizing i0 with
  | nil => simp [mapWithIndex]
  | cons a as ih =>
    intro b hb
    rw [mapWithIndex] at hb
    rcases List.mem_cons.mp hb with rfl | hb
    · exact hf _ _
    · exact ih _ b hb

lemma syncFixGo_invariants (ss : List SyncSegment) : ∀ prev : SyncSegment,
    0 ≤ prev.«end» →
    (∀ s ∈ ss, 0 ≤ s.start ∧ s.start + 1/10 ≤ s.«end») →
    (∀ x ∈ syncFixGo prev ss, 0 ≤ x.start ∧ x.start < x.«end») ∧
      List.Chain' (fun a b => a.«end» ≤ b.start) (prev :: syncFixGo prev ss) := by
  induction ss with
  | nil =>
    intro prev _ _
    simp [syncFixGo]
  | cons s ss ih =>
    intro prev hprev hss
    have hs := hss s (List.mem_cons_self s ss)
    rw [syncFixGo]
    by_cases h : s.start < prev.«end»
    · simp only [if_pos h]
      by_cases h2 : s.«end» - (prev.«end» + 1/10) < 1/2
      · simp only [if_pos h2]
        obtain ⟨ih1, ih2⟩ := ih
          { s with start := prev.«end» + 1/10,
                   «end» := prev.«end» + 1/10 + 1/2 }
          (show (0:ℚ) ≤ prev.«end» + 1/10 + 1/2 by linarith)
          (fun x hx => hss x (List.mem_cons_of_mem s hx))
        refine ⟨?_, ?_⟩
        · intro x hx
          rcases List.mem_cons.mp hx with rfl | hx
          · exact ⟨show (0:ℚ) ≤ prev.«end» + 1/10 by linarith,
              show prev.«end» + 1/10 < prev.«end» + 1/10 + 1/2 by linarith⟩
          · exact ih1 x hx
        · exact List.Chain'.cons
            (show prev.«end» ≤ prev.«end» + 1/10 by linarith) ih2
      · simp only [if_neg h2]
        obtain ⟨ih1, ih2⟩ := ih
          { s with start := prev.«end» + 1/10 }
          (show (0:ℚ) ≤ s.«end» by linarith)
          (fun x hx => hss x (List.mem_cons_of_mem s hx))
        refine ⟨?_, ?_⟩
        · intro x hx
          rcases List.mem_cons.mp hx with rfl | hx
          · exact ⟨show (0:ℚ) ≤ prev.«end» + 1/10 by linarith,
              show prev.«end» + 1/10 < s.«end» by linarith⟩
          · exact ih1 x hx
        · exact List.Chain'.cons
            (show prev.«end» ≤ prev.«end» + 1/10 by linarith) ih2
    · simp only [if_neg h]
      obtain ⟨ih1, ih2⟩ := ih s (by linarith [hs.1, hs.2])
        (fun x hx => hss x (List.mem_cons_of_mem s hx))
      refine ⟨?_, ?_⟩
      · intro x hx
        rcases List.mem_cons.mp hx with rfl | hx
        · exact ⟨hs.1, by linarith [hs.2]⟩
        · exact ih1 x hx
      · exact List.Chain'.cons (by linarith) ih2

lemma fix_overlapping_sync_invariants (l : List SyncSegment)
    (hl : ∀ s ∈ l, 0 ≤ s.start ∧ s.start + 1/10 ≤ s.«end») :
    (∀ x ∈ fix_overlapping_sync_segments l,
      0 ≤ x.start ∧ x.start < x.«end») ∧
      List.Chain' (fun a b => a.«end» ≤ b.start)
        (fix_overlapping_sync_segments l) := by
  cases l with
  | nil => simp [fix_overlapping_sync_segments]
  | cons s ss =>
    have hs := hl s (List.mem_cons_self s ss)
    obtain ⟨h1, h2⟩ := syncFixGo_invariants ss s (by linarith [hs.1, hs.2])
      (fun x hx => hl x (List.mem_cons_of_mem s hx))
    rw [fix_overlapping_sync_segments]
    refine ⟨?_, h2⟩
    intro x hx
    rcases List.mem_cons.mp hx with rfl | hx
    · exact ⟨hs.1, by linarith [hs.2]⟩
    · exact h1 x hx

/-- C10: whenever the correction is actually applied (confidence ≥ 0.3),
every segment returned by `apply_sync_correction` has `start ≥ 0` and
`end > start`, and consecutive returned segments never overlap. -/
theorem apply_sync_correction_invariants (segments : List SyncSegment)
    (correction : SyncCorrection) (h : 3/10 ≤ correction.confidence) :
    (∀ s ∈ apply_sync_correction segments correction,
      0 ≤ s.start ∧ s.start < s.«end») ∧
      List.Chain' (fun a b => a.«end» ≤ b.start)
        (apply_sync_correction segments correction) := by
  have h1 : ¬ correction.confidence < 3/10 := by linarith
  rw [apply_sync_correction, if_neg h1]
  apply fix_overlapping_sync_invariants
  exact mapWithIndex_forall _
    (fun i a => correctSegment_good _ correction i segments.length a) 0 segments

/-- Witness for C10 at the concrete `[5,7]` segment and 10 s correction. -/
theorem apply_sync_correction_invariants_witness :
    List.Chain' (fun a b => a.«end» ≤ b.start)
      (apply_sync_correction [seg6] corr6) :=
  (apply_sync_correction_invariants [seg6] corr6
    (by norm_num [corr6])).2

/-! ## `UtteranceSegmentator` (src/services/utterance_segmentation.py) -/

structure UttWord where
  text : String
  start : ℚ
  «end» : ℚ
  confidence : ℚ
deriving DecidableEq, Repr

instance : Inhabited UttWord := ⟨⟨"", 0, 0, 0⟩⟩

structure UtteranceSegment where
  text : String
  start : ℚ
  «end» : ℚ
  confidence : ℚ
  speaker : String
  words : List UttWord
  pause_before : ℚ
  pause_after : ℚ
  is_natural_break : Bool
  segment_id : ℕ
deriving DecidableEq, Repr

instance : Inhabited UtteranceSegment := ⟨⟨"", 0, 0, 0, "A", [], 0, 0, true, 0⟩⟩

/-- `_analyze_pauses` (utterance_segmentation.py lines 243-282): the code
mutates each utterance's `pause_before`/`pause_after` in place, reading the
neighbours' (never-mutated) `start`/`end` fields. -/
def analyzePauses (us : List UtteranceSegment) : List UtteranceSegment :=
  if us.length < 2 then us
  else
    mapWithIndex (fun i u =>
      let u1 :=
        if 0 < i then
          let pb := max 0 (u.start - ((us.get? (i - 1)).getD default).«end»)
          { u with pause_before := pb }
        else u
      if i < us.length - 1 then
        let pa := max 0 (((us.get? (i + 1)).getD default).start - u.«end»)
        { u1 with pause_after := pa }
      else u1) 0 us

/-- `_is_good_split_point` (utterance_segmentation.py lines 405-429).
The Python code locates the word's index as the first list entry equal to
it (`next(i for i, w in enumerate(all_words) if w == word)`). -/
def isGoodSplitPoint (w : UttWord) (all_words : List UttWord) : Bool :=
  let t := w.text.toLower
  if t.contains ',' || t.contains ';' || t.contains ':' then true
  else
    let idx := all_words.indexOf w
    if idx + 1 < all_words.length then
      decide (((all_words.get? (idx + 1)).getD default).text.toLower ∈
        (["i", "a", "ale", "oraz", "lub", "bo", "że", "gdy", "jeśli"] :
          List String))
    else false

def mkSplitPart (u : UtteranceSegment) (cs : ℚ) (w : UttWord)
    (cw : List UttWord) : UtteranceSegment :=
  { text := String.intercalate " " (cw.map (·.text)), start := cs,
    «end» := w.«end», confidence := u.confidence, speaker := u.speaker,
    words := cw, pause_before := 0, pause_after := 0,
    is_natural_break := false, segment_id := u.segment_id }

def mkSplitFinal (u : UtteranceSegment) (cs : ℚ) (cw : List UttWord) :
    UtteranceSegment :=
  { text := String.intercalate " " (cw.map (·.text)), start := cs,
    «end» := u.«end», confidence := u.confidence, speaker := u.speaker,
    words := cw, pause_before := 0, pause_after := 0,
    is_natural_break := u.is_natural_break, segment_id := u.segment_id }

/-- The word loop of `_split_long_utterance`
(utterance_segmentation.py lines 352-403). -/
def splitGo (u : UtteranceSegment) :
    ℚ → List UttWord → List UttWord → List UtteranceSegment
  | cs, cw, [] => if cw = [] then [] else [mkSplitFinal u cs cw]
  | cs, cw, w :: ws =>
    let cw2 := cw ++ [w]
    if 5 ≤ w.«end» - cs ∧ isGoodSplitPoint w u.words = true then
      mkSplitPart u cs w cw2 :: splitGo u w.«end» [] ws
    else splitGo u cs cw2 ws

def splitLongUtterance (u : UtteranceSegment) : List UtteranceSegment :=
  if u.words = [] then [u]
  else
    let r := splitGo u u.start [] u.words
    if r = [] then [u] else r

/-- The merge of `_optimize_utterance_segmentation`
(utterance_segmentation.py lines 311-325). -/
def combineUtterances (prev u : UtteranceSegment) : UtteranceSegment :=
  { text := prev.text ++ " " ++ u.text, start := prev.start,
    «end» := u.«end», confidence := (prev.confidence + u.confidence) / 2,
    speaker := prev.speaker, words := prev.words ++ u.words,
    pause_before := prev.pause_before, pause_after := u.pause_after,
    is_natural_break := u.is_natural_break, segment_id := prev.segment_id }

/-- One iteration of the `_optimize_utterance_segmentation` loop over the
accumulated `optimized` list (utterance_segmentation.py lines 299-334). -/
def optimizeStep (acc : List UtteranceSegment) (u : UtteranceSegment) :
    List UtteranceSegment :=
  let d := u.«end» - u.start
  match acc.getLast? with
  | some prev =>
    if d < 1/2 ∧ prev.speaker = u.speaker ∧ u.pause_before < 1 then
      acc.dropLast ++ [combineUtterances prev u]
    else if 10 < d then acc ++ splitLongUtterance u
    else acc ++ [u]
  | none =>
    if 10 < d then acc ++ splitLongUtterance u
    else acc ++ [u]

def optimizeUtterances (us : List UtteranceSegment) : List UtteranceSegment :=
  if us = [] then us else us.foldl optimizeStep []

/-! ## C8 — merging short same-speaker utterances -/

lemma optimizeStep_nil_short (u : UtteranceSegment)
    (h : ¬ 10 < u.«end» - u.start) : optimizeStep [] u = [u] := by
  rw [optimizeStep]
  show (if 10 < u.«end» - u.start then [] ++ splitLongUtterance u
    else [] ++ [u]) = [u]
  rw [if_neg h, List.nil_append]

lemma optimizeStep_merge (acc : List UtteranceSegment)
    (prev u : UtteranceSegment) (hlast : acc.getLast? = some prev)
    (hd : u.«end» - u.start < 1/2) (hsp : prev.speaker = u.speaker)
    (hpb : u.pause_before < 1) :
    optimizeStep acc u = acc.dropLast ++ [combineUtterances prev u] := by
  rw [optimizeStep, hlast]
  show (if u.«end» - u.start < 1/2 ∧ prev.speaker = u.speaker ∧
      u.pause_before < 1 then acc.dropLast ++ [combineUtterances prev u]
    else if 10 < u.«end» - u.start then acc ++ splitLongUtterance u
    else acc ++ [u]) = acc.dropLast ++ [combineUtterances prev u]
  rw [if_pos ⟨hd, hsp, hpb⟩]

/-- C8: (i) at any point of the optimisation pass, an utterance shorter
than 500 ms whose speaker equals the current predecessor's and whose
`pause_before` is under 1 s is merged into that predecessor; (ii) for a
two-utterance input with the second shorter than 500 ms, the same speaker,
and a gap under 1 s, the pause-analysis + optimisation pipeline yields the
single combined utterance spanning from the first's start to the second's
end. -/
theorem merge_short_utterances
    (acc : List UtteranceSegment) (prev u u1 u2 : UtteranceSegment)
    (hlast : acc.getLast? = some prev)
    (hd : u.«end» - u.start < 1/2)
    (hsp : prev.speaker = u.speaker)
    (hpb : u.pause_before < 1)
    (hd1 : u1.«end» - u1.start ≤ 10)
    (hd2 : u2.«end» - u2.start < 1/2)
    (hsp12 : u1.speaker = u2.speaker)
    (hgap : max 0 (u2.start - u1.«end») < 1) :
    optimizeStep acc u = acc.dropLast ++ [combineUtterances prev u] ∧
    optimizeUtterances (analyzePauses [u1, u2]) =
      [{ text := u1.text ++ " " ++ u2.text, start := u1.start,
         «end» := u2.«end»,
         confidence := (u1.confidence + u2.confidence) / 2,
         speaker := u1.speaker, words := u1.words ++ u2.words,
         pause_before := u1.pause_before, pause_after := u2.pause_after,
         is_natural_break := u2.is_natural_break,
         segment_id := u1.segment_id }] := by
  refine ⟨optimizeStep_merge acc prev u hlast hd hsp hpb, ?_⟩
  have hA : analyzePauses [u1, u2] =
      [{ u1 with pause_after := max 0 (u2.start - u1.«end») },
       { u2 with pause_before := max 0 (u2.start - u1.«end») }] := by
    simp [analyzePauses, mapWithIndex]
  rw [hA, optimizeUtterances,
    if_neg (List.cons_ne_nil _ _), List.foldl_cons, List.foldl_cons,
    List.foldl_nil]
  rw [optimizeStep_nil_short
    { u1 with pause_after := max 0 (u2.start - u1.«end») }
    (not_lt.mpr hd1)]
  rw [optimizeStep_merge
    [{ u1 with pause_after := max 0 (u2.start - u1.«end») }]
    { u1 with pause_after := max 0 (u2.start - u1.«end») }
    { u2 with pause_before := max 0 (u2.start - u1.«end») }
    (List.getLast?_singleton _) hd2 hsp12 hgap]
  simp [combineUtterances]

def su1 : UtteranceSegment := ⟨"hello", 0, 1/5, 9/10, "A", [], 0, 0, true, 0⟩

def su2 : UtteranceSegment := ⟨"there", 3/10, 3/5, 9/10, "A", [], 0, 0, true, 1⟩

/-- Witness for C8, Scenario C: `[0.0–0.2, A]` and `[0.3–0.6, A]` with a
0.1 s gap merge into a single utterance spanning `[0.0, 0.6]`. -/
theorem merge_short_utterances_witness :
    optimizeUtterances (analyzePauses [su1, su2]) =
      [⟨"hello there", 0, 3/5, 9/10, "A", [], 0, 0, true, 0⟩] := by
  have h := (merge_short_utterances [su1] su1 su2 su1 su2
    (by simp)
    (by norm_num [su1, su2])
    (by norm_num [su1, su2])
    (by norm_num [su1, su2])
    (by norm_num [su1])
    (by norm_num [su1, su2])
    (by norm_num [su1, su2])
    (by norm_num [su1, su2, max_lt_iff])).2
  rw [h]
  have hs : "hello" ++ " " ++ "there" = "hello there" := by decide
  norm_num [su1, su2, hs, UtteranceSegment.mk.injEq]

/-! ## `_stabilize_blocks_with_overlap` and
`_final_optimization_and_validation` (advanced_word_processor.py 449-549) -/

/-- `words[i:i + wpb]` slices for `i = 0, wpb, 2·wpb, ...`; `chunkAux k`
produces the slices for `wpb = k + 1`. -/
def chunkAux (k : ℕ) : List α → List (List α)
  | [] => []
  | a :: l => (a :: l.take k) :: chunkAux k (l.drop k)
termination_by l => l.length
decreasing_by simp [List.length_drop]; omega

def chunkList (wpb : ℕ) (l : List α) : List (List α) :=
  match wpb with
  | 0 => []
  | k + 1 => chunkAux k l

/-- Python's `max(set(speakers), key=speakers.count)`: a speaker of maximal
count (the set's iteration order being unspecified, the first-seen speaker
with maximal count is chosen). -/
def dominantSpeaker (ss : List String) : String :=
  let ids := ss.foldl (fun acc s => if s ∈ acc then acc else acc ++ [s]) []
  (ids.foldl (fun best s =>
    match best with
    | none => some s
    | some b => if ss.count b < ss.count s then some s else some b)
    none).getD "A"

structure StabilizedBlock where
  block_id : ℕ
  words : List WordTiming
  start_time : ℚ
  end_time : ℚ
  display_start : ℚ
  display_end : ℚ
  speaker : String
  confidence : ℚ
deriving DecidableEq, Repr

def mkStabBlock (bid : ℕ) (c : List WordTiming) (ds de : ℚ) :
    StabilizedBlock :=
  { block_id := bid, words := c, start_time := c.headI.start,
    end_time := ((c.getLast?).getD default).«end»,
    display_start := ds, display_end := de,
    speaker := dominantSpeaker (c.map (·.speaker)),
    confidence :=
      (c.map (·.confidence)).sum / (c.map (·.confidence)).length }

/-- The block loop: when a new block is appended, the previous block's
`display_end` is pushed forward by the overlap, capped at the new block's
content start plus the overlap. -/
def stabGo (prev : StabilizedBlock) :
    List (List WordTiming) → List StabilizedBlock
  | [] => [prev]
  | c :: cs =>
    let bs := c.headI.start
    let be := ((c.getLast?).getD default).«end»
    let ds := max (bs - block_overlap) prev.display_start
    let de := be + (if cs = [] then 0 else block_overlap)
    let de2 := min (prev.display_end + block_overlap) (bs + block_overlap)
    let prev2 := { prev with display_end := de2 }
    prev2 :: stabGo (mkStabBlock (prev.block_id + 1) c ds de) cs

def stabilizeBlocks (wpb : ℕ) (ws : List WordTiming) :
    List StabilizedBlock :=
  match chunkList wpb ws with
  | [] => []
  | c :: cs =>
    let bs := c.headI.start
    let be := ((c.getLast?).getD default).«end»
    let de := be + (if cs = [] then 0 else block_overlap)
    stabGo (mkStabBlock 0 c bs de) cs

/-- `word.start >= 0 and word.end > word.start and word.word.strip()`. -/
def validWordTiming (w : WordTiming) : Bool :=
  decide (0 ≤ w.start) && decide (w.start < w.«end») && stripNonempty w.word

/-- The per-block validation/filter of `_final_optimization_and_validation`
(advanced_word_processor.py lines 514-537). -/
def filterBlocks (blocks : List StabilizedBlock) : List StabilizedBlock :=
  blocks.filterMap (fun b =>
    if 0 ≤ b.display_start ∧ b.display_start < b.display_end then
      let vw := b.words.filter validWordTiming
      if vw = [] then none
      else
        some { b with
                words := vw
                start_time := vw.headI.start
                end_time := ((vw.getLast?).getD default).«end» }
    else none)

/-- The final overlap clamp of `_final_optimization_and_validation`
(advanced_word_processor.py lines 539-546). -/
def clampPass : List StabilizedBlock → List StabilizedBlock
  | [] => []
  | [b] => [b]
  | b :: c :: rest =>
    let b2 := if c.display_start + block_overlap < b.display_end
      then { b with display_end := c.display_start + block_overlap } else b
    b2 :: clampPass (c :: rest)

def finalOptimizationAndValidation (blocks : List StabilizedBlock) :
    List StabilizedBlock :=
  clampPass (filterBlocks blocks)

lemma chunkAux_flatten_aux (k : ℕ) :
    ∀ (n : ℕ) (l : List α), l.length ≤ n → (chunkAux k l).flatten = l := by
  intro n
  induction n with
  | zero =>
    intro l h
    have hl : l = [] := List.length_eq_zero.mp (Nat.le_zero.mp h)
    subst hl
    simp [chunkAux]
  | succ n ih =>
    intro l h
    cases l with
    | nil => simp [chunkAux]
    | cons a t =>
      rw [chunkAux, List.flatten_cons, ih (t.drop k) ?_]
      · rw [List.cons_append, List.take_append_drop]
      · rw [List.length_drop]
        simp only [List.length_cons] at h
        omega

lemma chunkAux_flatten (k : ℕ) (l : List α) : (chunkAux k l).flatten = l :=
  chunkAux_flatten_aux k l.length l le_rfl

lemma chunkAux_mem_length_aux (k : ℕ) :
    ∀ (n : ℕ) (l : List α) (c : List α), l.length ≤ n →
      c ∈ chunkAux k l → c.length ≤ k + 1 := by
  intro n
  induction n with
  | zero =>
    intro l c h hc
    have hl : l = [] := List.length_eq_zero.mp (Nat.le_zero.mp h)
    subst hl
    simp [chunkAux] at hc
  | succ n ih =>
    intro l c h hc
    cases l with
    | nil => simp [chunkAux] at hc
    | cons a t =>
      rw [chunkAux] at hc
      rcases List.mem_cons.mp hc with rfl | hc
      · simp only [List.length_cons, List.length_take]
        omega
      · refine ih (t.drop k) c ?_ hc
        rw [List.length_drop]
        simp only [List.length_cons] at h
        omega

lemma chunkAux_dropLast_aux (k : ℕ) :
    ∀ (n : ℕ) (l : List α) (m : ℕ), l.length ≤ n →
      m ∈ ((chunkAux k l).map List.length).dropLast → m = k + 1 := by
  intro n
  induction n with
  | zero =>
    intro l m h hm
    have hl : l = [] := List.length_eq_zero.mp (Nat.le_zero.mp h)
    subst hl
    simp [chunkAux] at hm
  | succ n ih =>
    intro l m h hm
    cases l with
    | nil => simp [chunkAux] at hm
    | cons a t =>
      rw [chunkAux, List.map_cons] at hm
      by_cases hM : (chunkAux k (t.drop k)).map List.length = []
      · rw [hM] at hm
        simp at hm
      · rw [List.dropLast_cons_of_ne_nil hM] at hm
        rcases List.mem_cons.mp hm with rfl | hm
        · have ht : t.drop k ≠ [] := by
            intro hd
            rw [hd] at hM
            simp [chunkAux] at hM
          have hk : k < t.length := by
            by_contra hk
            exact ht (List.drop_eq_nil_of_le (by omega))
          simp only [List.length_cons, List.length_take]
          omega
        · refine ih (t.drop k) m ?_ hm
          rw [List.length_drop]
          simp only [List.length_cons] at h
          omega

lemma stabGo_words (cs : List (List WordTiming)) :
    ∀ prev, (stabGo prev cs).map (fun b => b.words) = prev.words :: cs := by
  induction cs with
  | nil => intro prev; simp [stabGo]
  | cons c cs ih =>
    intro prev
    rw [stabGo, List.map_cons, ih]
    rfl

lemma stabilizeBlocks_words (k : ℕ) (ws : List WordTiming) :
    (stabilizeBlocks (k + 1) ws).map (fun b => b.words) = chunkAux k ws := by
  rw [stabilizeBlocks]
  cases h : chunkList (k + 1) ws with
  | nil => simpa [chunkList] using h.symm
  | cons c cs =>
    rw [stabGo_words]
    rw [chunkList] at h
    show c :: cs = chunkAux k ws
    exact h.symm

lemma clampPass_head (b : StabilizedBlock) (l : List StabilizedBlock) :
    ∃ b' t, clampPass (b :: l) = b' :: t ∧
      b'.display_start = b.display_start := by
  cases l with
  | nil => exact ⟨b, [], rfl, rfl⟩
  | cons c rest =>
    rw [clampPass]
    by_cases h : c.display_start + block_overlap < b.display_end
    · exact ⟨_, _, rfl, by simp [h]⟩
    · exact ⟨_, _, rfl, by simp [h]⟩

lemma clampPass_chain (l : List StabilizedBlock) :
    List.Chain' (fun x y => x.display_end ≤ y.display_start + block_overlap)
      (clampPass l) := by
  induction l with
  | nil => simp [clampPass]
  | cons b l ih =>
    cases l with
    | nil => simp [clampPass]
    | cons c rest =>
      rw [clampPass]
      obtain ⟨c', t, hct, hcd⟩ := clampPass_head c rest
      rw [hct]
      rw [hct] at ih
      refine List.Chain'.cons ?_ ih
      rw [hcd]
      by_cases h : c.display_start + block_overlap < b.display_end
      · simp [h]
      · simp only [if_neg h]
        linarith [not_lt.mp h]

/-! ## C9 — block partition sizes and display overlap bound -/

def sevenTokens : List WordTiming :=
  [⟨"w0", 0, 1/2, 9/10, "A", 0, 1/2, false, false⟩,
   ⟨"w1", 1, 3/2, 9/10, "A", 1, 1/2, false, false⟩,
   ⟨"w2", 2, 5/2, 9/10, "A", 2, 1/2, false, false⟩,
   ⟨"w3", 3, 7/2, 9/10, "A", 3, 1/2, false, false⟩,
   ⟨"w4", 4, 9/2, 9/10, "A", 4, 1/2, false, false⟩,
   ⟨"w5", 5, 11/2, 9/10, "A", 5, 1/2, false, false⟩,
   ⟨"w6", 6, 13/2, 9/10, "A", 6, 1/2, false, false⟩]

/-- C9: the stabiliser partitions the token stream into consecutive blocks
(their word lists concatenate back to the input), every block holds at most
`words_per_block` tokens and only the last may hold fewer; 7 tokens with
`words_per_block = 3` produce block sizes `[3, 3, 1]`; and after the final
validation pass consecutive blocks always satisfy
`display_end ≤ next.display_start + overlap`. -/
theorem block_stabilizer_properties :
    (∀ (k : ℕ) (ws : List WordTiming),
      ((stabilizeBlocks (k + 1) ws).map (fun b => b.words)).flatten = ws) ∧
    (∀ (k : ℕ) (ws : List WordTiming) (n : ℕ),
      n ∈ (stabilizeBlocks (k + 1) ws).map (fun b => b.words.length) →
        n ≤ k + 1) ∧
    (∀ (k : ℕ) (ws : List WordTiming) (n : ℕ),
      n ∈ ((stabilizeBlocks (k + 1) ws).map
        (fun b => b.words.length)).dropLast → n = k + 1) ∧
    ((stabilizeBlocks 3 sevenTokens).map (fun b => b.words.length) =
      [3, 3, 1]) ∧
    (∀ blocks : List StabilizedBlock,
      List.Chain' (fun x y => x.display_end ≤ y.display_start + block_overlap)
        (finalOptimizationAndValidation blocks)) := by
  refine ⟨?_, ?_, ?_, ?_, ?_⟩
  · intro k ws
    rw [stabilizeBlocks_words, chunkAux_flatten]
  · intro k ws n hn
    have : (fun b : StabilizedBlock => b.words.length) =
        List.length ∘ (fun b : StabilizedBlock => b.words) := rfl
    rw [this, ← List.map_map, stabilizeBlocks_words] at hn
    obtain ⟨c, hc, rfl⟩ := List.mem_map.mp hn
    exact chunkAux_mem_length_aux k ws.length ws c le_rfl hc
  · intro k ws n hn
    have : (fun b : StabilizedBlock => b.words.length) =
        List.length ∘ (fun b : StabilizedBlock => b.words) := rfl
    rw [this, ← List.map_map, stabilizeBlocks_words] at hn
    exact chunkAux_dropLast_aux k ws.length ws n le_rfl hn
  · simp [stabilizeBlocks, chunkList, chunkAux, stabGo, mkStabBlock,
      sevenTokens]
  · intro blocks
    rw [finalOptimizationAndValidation]
    exact clampPass_chain _

/-- Witness for C9's membership-guarded conjuncts, at one- and two-token
inputs with `words_per_block = 1`. -/
theorem block_stabilizer_properties_witness :
    ((1 : ℕ) ≤ 0 + 1) ∧ ((1 : ℕ) = 0 + 1) :=
  ⟨block_stabilizer_properties.2.1 0 [wordA] 1
    (by simp [stabilizeBlocks, chunkList, chunkAux, stabGo, mkStabBlock]),
   block_stabilizer_properties.2.2.1 0 [wordA, wordB] 1
    (by simp [stabilizeBlocks, chunkList, chunkAux, stabGo, mkStabBlock])⟩
